import Mathlib

/-!
# vault-init-aws: lifecycle controller, initialization and unsealing

A shallow embedding of `src/main.go`.  The program is a sequential loop that
probes the health endpoint of a Vault server and, depending on the status code,
runs `initialize` and/or `unseal`.  Every interaction with the outside world
(HTTP exchange, KMS call, S3 call, log line, sleep) is recorded as an `Event`;
a function of the program is embedded as the list of events one run of it
emits, given the answers of the outside world.

The answers of the outside world are arbitrary: they are fields of `Services`
(one record per run of a flow), and the pure library functions the program
calls (`http.NewRequest`, `json.Unmarshal`) are fields of `Lib`.  A service that
is called several times in one run receives the ordinal of the call, so that it
may answer each call differently.

One library call does not return: after a failed `session.NewSession()` the
session is nil, and `kms.New` on it panics (main.go:186, main.go:245).  The
panic is the event `Event.panic`; it ends the run of the flow and the process.

`base64.StdEncoding` is embedded concretely (RFC 4648 section 4, padded).
-/

namespace VaultInit

/-! ## Data model -/

/-- A Go byte slice; every element is meant to be below 256. -/
abbrev Bytes := List Nat

/-- A Go `error` value, by its message. -/
abbrev Error := String

/-- All elements of a byte slice are bytes. -/
def IsBytes (b : Bytes) : Prop := ∀ x ∈ b, x < 256

instance (b : Bytes) : Decidable (IsBytes b) := by
  unfold IsBytes; infer_instance

/-- The conversion `[]byte(s)` of a Go string: its UTF-8 bytes. -/
def goBytes (s : String) : Bytes :=
  s.toList.flatMap fun c => (String.utf8EncodeChar c).map UInt8.toNat

/-- Type `InitRequest` (main.go:35). -/
structure InitRequest where
  SecretShares : Int
  SecretThreshold : Int
  deriving DecidableEq, Repr

/-- Type `InitResponse` (main.go:41). -/
structure InitResponse where
  Keys : List String
  KeysBase64 : List String
  RootToken : String
  deriving DecidableEq, Repr

/-- Type `UnsealRequest` (main.go:48). -/
structure UnsealRequest where
  Key : String
  Reset : Bool
  deriving DecidableEq, Repr

/-- Type `UnsealResponse` (main.go:54). -/
structure UnsealResponse where
  Sealed : Bool
  T : Int
  N : Int
  Progress : Int
  deriving DecidableEq, Repr

/-- The body of an HTTP request before `json.Marshal`.  Marshalling a struct of
integers, strings and booleans cannot fail, so the request is kept structured. -/
inductive Payload where
  | init (r : InitRequest)
  | unsealKey (r : UnsealRequest)
  deriving DecidableEq, Repr

/-- An `*http.Request` as built by `http.NewRequest(method, url, body)`. -/
structure Request where
  Method : String
  URL : String
  Body : Payload
  deriving DecidableEq, Repr

/-- An `*http.Response`: its status code and what `ioutil.ReadAll` gives on its
body (the bytes read, and the error if reading stopped early). -/
structure Response where
  StatusCode : Nat
  Body : Bytes × Option Error
  deriving DecidableEq, Repr

/-- The `*kms.EncryptOutput` of the SDK; returned by `Encrypt` next to the error. -/
structure EncryptOutput where
  CiphertextBlob : Bytes
  deriving DecidableEq, Repr

/-- The `*kms.DecryptOutput` of the SDK; returned by `Decrypt` next to the error. -/
structure DecryptOutput where
  Plaintext : Bytes
  deriving DecidableEq, Repr

/-- The two flows the controller can invoke. -/
inductive Flow where
  | initialization
  | unsealing
  deriving DecidableEq, Repr

/-- One constructor per logging statement of main.go; the line is in the comment. -/
inductive LogLine where
  /-- main.go:109 `log.Println(err)` -/
  | probeErr (e : Error)
  /-- main.go:116 -/
  | initializedUnsealed
  /-- main.go:118 -/
  | standby
  /-- main.go:120 -/
  | notInitialized
  /-- main.go:124 -/
  | sealed
  /-- main.go:127 -/
  | unknownState (code : Nat)
  /-- main.go:130 -/
  | nextCheck (d : Int)
  /-- main.go:151 -/
  | initNewRequestErr (e : Error)
  /-- main.go:157 -/
  | initDoErr (e : Error)
  /-- main.go:163 -/
  | initReadErr (e : Error)
  /-- main.go:168 -/
  | initNon200 (code : Nat)
  /-- main.go:175 -/
  | initUnmarshalErr (e : Error)
  /-- main.go:179 -/
  | encrypting
  /-- main.go:183 and main.go:242 -/
  | sessionErr (e : Error)
  /-- main.go:195 -/
  | encryptRootTokenErr (e : Error)
  /-- main.go:204 -/
  | encryptUnsealKeysErr (e : Error)
  /-- main.go:216 -/
  | cannotWriteRootToken (bucket key : String) (e : Error)
  /-- main.go:218 -/
  | rootTokenWritten (bucket key : String)
  /-- main.go:230 -/
  | cannotWriteUnsealKeys (bucket key : String) (e : Error)
  /-- main.go:232 -/
  | unsealKeysWritten (bucket key : String)
  /-- main.go:235 -/
  | initializationComplete
  /-- main.go:255 -/
  | getObjectErr (e : Error)
  /-- main.go:261 -/
  | getObjectReadErr (e : Error)
  /-- main.go:268 -/
  | decryptErr (e : Error)
  /-- main.go:276 -/
  | base64Err
  /-- main.go:281 -/
  | unsealUnmarshalErr (e : Error)
  /-- main.go:292 -/
  | unsealOneErr (e : Error)
  deriving DecidableEq, Repr

/-- The observable actions of the program. -/
inductive Event where
  | log (l : LogLine)
  /-- `time.Sleep(d)` -/
  | sleep (d : Int)
  /-- `httpClient.Get(url)` -/
  | httpGet (url : String)
  /-- `httpClient.Do(request)` -/
  | httpDo (r : Request)
  /-- `KMSService.Encrypt` -/
  | kmsEncrypt (keyId : String) (plaintext : Bytes)
  /-- `KMSService.Decrypt` -/
  | kmsDecrypt (ciphertext : Bytes)
  /-- `S3Service.PutObject` -/
  | s3Put (bucket key : String) (body : Bytes)
  /-- `S3Service.GetObject` -/
  | s3Get (bucket key : String)
  /-- a call statement `initialize()` or `unseal()` of `main` -/
  | call (f : Flow)
  /-- the process dies of a nil pointer dereference in `kms.New` -/
  | panic
  deriving DecidableEq, Repr

/-- The package-level variables set once at startup (main.go:26-32, 79). -/
structure Config where
  vaultAddr : String
  checkIntervalDuration : Int
  s3BucketName : String
  kmsKeyId : String

/-- Pure library functions whose result depends on their arguments only. -/
structure Lib where
  /-- `http.NewRequest(method, url, _)`: the error, if the request cannot be built. -/
  NewRequest : String → String → Option Error
  /-- `json.Unmarshal` into a zero `InitResponse`. -/
  UnmarshalInitResponse : Bytes → Except Error InitResponse
  /-- `json.Unmarshal` into a zero `UnsealResponse`. -/
  UnmarshalUnsealResponse : Bytes → Except Error UnsealResponse

/-- The answers of the outside world during one run of a flow.  The leading
`Nat` of `Do`, `Encrypt` and `PutObject` is the ordinal of the call in the run. -/
structure Services where
  /-- `httpClient.Do(request)` -/
  Do : Nat → Request → Except Error Response
  /-- `session.NewSession()`: its error, if any -/
  NewSession : Option Error
  /-- `KMSService.Encrypt` with `KeyId` and `Plaintext`: output and error -/
  Encrypt : Nat → String → Bytes → EncryptOutput × Option Error
  /-- `KMSService.Decrypt` with `CiphertextBlob`: output and error -/
  Decrypt : Bytes → DecryptOutput × Option Error
  /-- `S3Service.PutObject` with `Bucket`, `Key` and `Body`: its error, if any -/
  PutObject : Nat → String → String → Bytes → Option Error
  /-- `S3Service.GetObject` with `Bucket` and `Key`: the error, or what
  `ioutil.ReadAll` gives on the body of the object -/
  GetObject : String → String → Except Error (Bytes × Option Error)

/-! ## `encoding/base64`, `StdEncoding` -/

/-- The alphabet of RFC 4648 table 1 as a function of the 6-bit value:
`A-Z`, `a-z`, `0-9`, `+`, `/`. -/
def encodeStd (s : Nat) : Nat :=
  if s < 26 then 65 + s
  else if s < 52 then 97 + (s - 26)
  else if s < 62 then 48 + (s - 52)
  else if s = 62 then 43
  else 47

/-- The decode map of the alphabet: the 6-bit value of a character, if any. -/
def decodeMap (c : Nat) : Option Nat :=
  if 65 ≤ c ∧ c ≤ 90 then some (c - 65)
  else if 97 ≤ c ∧ c ≤ 122 then some (c - 97 + 26)
  else if 48 ≤ c ∧ c ≤ 57 then some (c - 48 + 52)
  else if c = 43 then some 62
  else if c = 47 then some 63
  else none

/-- The padding character `=`. -/
def padChar : Nat := 61

/-- `base64.StdEncoding.EncodeToString`: three bytes give four characters; a
remainder of one or two bytes is padded. -/
def EncodeToString : Bytes → Bytes
  | [] => []
  | [a] =>
    let val := a * 65536
    [encodeStd (val / 262144 % 64), encodeStd (val / 4096 % 64), padChar, padChar]
  | [a, b] =>
    let val := a * 65536 + b * 256
    [encodeStd (val / 262144 % 64), encodeStd (val / 4096 % 64),
      encodeStd (val / 64 % 64), padChar]
  | a :: b :: c :: rest =>
    let val := a * 65536 + b * 256 + c
    encodeStd (val / 262144 % 64) :: encodeStd (val / 4096 % 64) ::
      encodeStd (val / 64 % 64) :: encodeStd (val % 64) :: EncodeToString rest

/-- The quanta of a base64 text without line breaks: four characters give three
bytes; the last quantum may end in `=` or `==`, and nothing may follow it. -/
def decodeQuanta : Bytes → Option Bytes
  | [] => some []
  | c0 :: c1 :: c2 :: c3 :: rest =>
    match decodeMap c0, decodeMap c1 with
    | some s0, some s1 =>
      match decodeMap c2, decodeMap c3 with
      | some s2, some s3 =>
        let val := s0 * 262144 + s1 * 4096 + s2 * 64 + s3
        (decodeQuanta rest).map fun t =>
          (val / 65536 % 256) :: (val / 256 % 256) :: (val % 256) :: t
      | some s2, none =>
        let val := s0 * 262144 + s1 * 4096 + s2 * 64
        if c3 = padChar ∧ rest = [] then some [val / 65536 % 256, val / 256 % 256]
        else none
      | none, _ =>
        let val := s0 * 262144 + s1 * 4096
        if c2 = padChar ∧ c3 = padChar ∧ rest = [] then some [val / 65536 % 256]
        else none
    | _, _ => none
  | _ => none

/-- `base64.StdEncoding.DecodeString`: carriage returns and line feeds are
skipped, the rest is decoded quantum by quantum; `none` is a `CorruptInputError`. -/
def DecodeString (s : Bytes) : Option Bytes :=
  decodeQuanta (s.filter fun c => c ≠ 10 ∧ c ≠ 13)

/-! ## `initialize` (main.go:135-236) -/

/-- A statement `if err != nil { log... }` without `return`: an error is logged
and the flow goes on (main.go:194-196, 203-205, 260-262). -/
def logIfErr (mk : Error → LogLine) (err : Option Error) : List Event :=
  match err with
  | some e => [.log (mk e)]
  | none => []

/-- The log line after `S3Service.PutObject`: the error or the success. -/
def putLog (bad : Error → LogLine) (good : LogLine) (err : Option Error) : List Event :=
  match err with
  | some e => [.log (bad e)]
  | none => [.log good]

/-- The request `PUT vaultAddr/v1/sys/init` with 5 shares and threshold 3. -/
def initRequest (cfg : Config) : Request :=
  ⟨"PUT", cfg.vaultAddr ++ "/v1/sys/init", .init ⟨5, 3⟩⟩

/-- The second half of `initialize` (main.go:179-235), entered once the init
response has been parsed.  A failed `session.NewSession()` is logged without
`return` (main.go:181-184) and `kms.New` panics on the nil session (main.go:186).
Otherwise: encrypt the root token and the base64 text of the raw response body,
then put both ciphertexts into the bucket. -/
def escrow (cfg : Config) (svc : Services) (initRequestResponseBody : Bytes)
    (initResponse : InitResponse) : List Event :=
  let rootTokenPlain := goBytes initResponse.RootToken
  let rootTokenEncrypted := svc.Encrypt 0 cfg.kmsKeyId rootTokenPlain
  let unsealKeysPlain := EncodeToString initRequestResponseBody
  let unsealKeysEncrypted := svc.Encrypt 1 cfg.kmsKeyId unsealKeysPlain
  let rootTokenBlob := rootTokenEncrypted.1.CiphertextBlob
  let unsealKeysBlob := unsealKeysEncrypted.1.CiphertextBlob
  match svc.NewSession with
  | some e => [.log .encrypting, .log (.sessionErr e), .panic]
  | none =>
  [.log .encrypting]
    ++ [.kmsEncrypt cfg.kmsKeyId rootTokenPlain]
    ++ logIfErr .encryptRootTokenErr rootTokenEncrypted.2
    ++ [.kmsEncrypt cfg.kmsKeyId unsealKeysPlain]
    ++ logIfErr .encryptUnsealKeysErr unsealKeysEncrypted.2
    ++ [.s3Put cfg.s3BucketName "root-token.json.enc" rootTokenBlob]
    ++ putLog (.cannotWriteRootToken cfg.s3BucketName "root-token.json.enc")
        (.rootTokenWritten cfg.s3BucketName "root-token.json.enc")
        (svc.PutObject 0 cfg.s3BucketName "root-token.json.enc" rootTokenBlob)
    ++ [.s3Put cfg.s3BucketName "unseal-keys.json.enc" unsealKeysBlob]
    ++ putLog (.cannotWriteUnsealKeys cfg.s3BucketName "unseal-keys.json.enc")
        (.unsealKeysWritten cfg.s3BucketName "unseal-keys.json.enc")
        (svc.PutObject 1 cfg.s3BucketName "unseal-keys.json.enc" unsealKeysBlob)
    ++ [.log .initializationComplete]

/-- Function `initialize` (main.go:135): the events of one run.  (The source name
is a reserved word of Lean.) -/
def initializeVault (lib : Lib) (cfg : Config) (svc : Services) : List Event :=
  match lib.NewRequest "PUT" (cfg.vaultAddr ++ "/v1/sys/init") with
  | some e => [.log (.initNewRequestErr e)]
  | none =>
    match svc.Do 0 (initRequest cfg) with
    | .error e => [.httpDo (initRequest cfg), .log (.initDoErr e)]
    | .ok response =>
      match response.Body with
      | (_, some e) => [.httpDo (initRequest cfg), .log (.initReadErr e)]
      | (initRequestResponseBody, none) =>
        if response.StatusCode ≠ 200 then
          [.httpDo (initRequest cfg), .log (.initNon200 response.StatusCode)]
        else
          match lib.UnmarshalInitResponse initRequestResponseBody with
          | .error e => [.httpDo (initRequest cfg), .log (.initUnmarshalErr e)]
          | .ok initResponse =>
            .httpDo (initRequest cfg) :: escrow cfg svc initRequestResponseBody initResponse

/-! ## `unsealOne` and `unseal` (main.go:238-339) -/

/-- The request `PUT vaultAddr/v1/sys/unseal` carrying one key share. -/
def unsealRequest (cfg : Config) (key : String) : Request :=
  ⟨"PUT", cfg.vaultAddr ++ "/v1/sys/unseal", .unsealKey ⟨key, false⟩⟩

/-- Function `unsealOne` (main.go:298), as call number `n` of the run: the events
it emits and its two results `(done, err)`. -/
def unsealOne (lib : Lib) (cfg : Config) (svc : Services) (n : Nat) (key : String) :
    List Event × Bool × Option Error :=
  match lib.NewRequest "PUT" (cfg.vaultAddr ++ "/v1/sys/unseal") with
  | some e => ([], false, some e)
  | none =>
    match svc.Do n (unsealRequest cfg key) with
    | .error e => ([.httpDo (unsealRequest cfg key)], false, some e)
    | .ok response =>
      if response.StatusCode ≠ 200 then
        ([.httpDo (unsealRequest cfg key)], false,
          some ("unseal: non-200 status code: " ++ toString response.StatusCode))
      else
        match response.Body with
        | (_, some e) => ([.httpDo (unsealRequest cfg key)], false, some e)
        | (unsealRequestResponseBody, none) =>
          match lib.UnmarshalUnsealResponse unsealRequestResponseBody with
          | .error e => ([.httpDo (unsealRequest cfg key)], false, some e)
          | .ok unsealResponse =>
            if !unsealResponse.Sealed then ([.httpDo (unsealRequest cfg key)], true, none)
            else ([.httpDo (unsealRequest cfg key)], false, none)

/-- The loop over `initResponse.KeysBase64` (main.go:285-295); `n` counts the
shares already visited. -/
def unsealLoop (lib : Lib) (cfg : Config) (svc : Services) : Nat → List String → List Event
  | _, [] => []
  | n, key :: rest =>
    let r := unsealOne lib cfg svc n key
    if r.2.1 then r.1
    else
      match r.2.2 with
      | some e => r.1 ++ [.log (.unsealOneErr e)]
      | none => r.1 ++ unsealLoop lib cfg svc (n + 1) rest

/-- Function `unseal` (main.go:238): the events of one run.  (The source name is
a reserved word of Lean.)  A failed `session.NewSession()` is logged without
`return` (main.go:240-243) and `kms.New` panics on the nil session (main.go:245). -/
def unsealVault (lib : Lib) (cfg : Config) (svc : Services) : List Event :=
  match svc.NewSession with
  | some e => [.log (.sessionErr e), .panic]
  | none =>
    match svc.GetObject cfg.s3BucketName "unseal-keys.json.enc" with
    | .error e => [.s3Get cfg.s3BucketName "unseal-keys.json.enc", .log (.getObjectErr e)]
    | .ok (unsealKeysEncryptedObjectData, readErr) =>
      let head := [.s3Get cfg.s3BucketName "unseal-keys.json.enc"]
        ++ logIfErr .getObjectReadErr readErr
        ++ [.kmsDecrypt unsealKeysEncryptedObjectData]
      match svc.Decrypt unsealKeysEncryptedObjectData with
      | (_, some e) => head ++ [.log (.decryptErr e)]
      | (unsealKeysData, none) =>
        match DecodeString unsealKeysData.Plaintext with
        | none => head ++ [.log .base64Err]
        | some unsealKeysPlaintext =>
          match lib.UnmarshalInitResponse unsealKeysPlaintext with
          | .error e => head ++ [.log (.unsealUnmarshalErr e)]
          | .ok initResponse => head ++ unsealLoop lib cfg svc 0 initResponse.KeysBase64

/-! ## The polling loop of `main` (main.go:102-132) -/

/-- What the outside world does during one iteration of the loop: the result of
the health probe, and the services seen by each flow the iteration may run. -/
structure Tick where
  /-- `httpClient.Get(vaultAddr + "/v1/sys/health")` -/
  Get : Except Error Response
  /-- the services during `initialize()` -/
  initServices : Services
  /-- the services during `unseal()` -/
  unsealServices : Services

/-- One iteration of the `for` loop of `main`.  A flow that panics ends the
iteration on the spot: after a panic of `initialize()` the call `unseal()` is not
reached, and after any panic neither the log line nor the sleep of main.go:130-131. -/
def iteration (lib : Lib) (cfg : Config) (t : Tick) : List Event :=
  let probe : Event := .httpGet (cfg.vaultAddr ++ "/v1/sys/health")
  match t.Get with
  | .error err => [probe, .log (.probeErr err), .sleep cfg.checkIntervalDuration]
  | .ok response =>
    let handled :=
      match response.StatusCode with
      | 200 => [.log .initializedUnsealed]
      | 429 => [.log .standby]
      | 501 =>
        if Event.panic ∈ initializeVault lib cfg t.initServices then
          [.log .notInitialized, .call .initialization] ++ initializeVault lib cfg t.initServices
        else
          [.log .notInitialized, .call .initialization] ++ initializeVault lib cfg t.initServices
            ++ [.call .unsealing] ++ unsealVault lib cfg t.unsealServices
      | 503 => [.log .sealed, .call .unsealing] ++ unsealVault lib cfg t.unsealServices
      | code => [.log (.unknownState code)]
    if Event.panic ∈ handled then probe :: handled
    else
      probe :: handled
        ++ [.log (.nextCheck cfg.checkIntervalDuration), .sleep cfg.checkIntervalDuration]

/-- The first `fuel` iterations of the loop laid end to end, the world given per
iteration.  This is the trace of the process as long as no iteration panics; the
trace of the process itself is `processTrace`. -/
def mainLoop (lib : Lib) (cfg : Config) (world : Nat → Tick) : Nat → List Event
  | 0 => []
  | fuel + 1 => mainLoop lib cfg world fuel ++ iteration lib cfg (world fuel)

/-- A trace up to and including its first panic. -/
def untilPanic : List Event → List Event
  | [] => []
  | e :: rest => if e = .panic then [.panic] else e :: untilPanic rest

/-- The trace of the process over the first `fuel` iterations: the iterations
end to end, cut at the first panic, which kills the process. -/
def processTrace (lib : Lib) (cfg : Config) (world : Nat → Tick) (fuel : Nat) : List Event :=
  untilPanic (mainLoop lib cfg world fuel)

/-! ## Observations on a trace -/

/-- The flows invoked, in order. -/
def flows (tr : List Event) : List Flow :=
  tr.filterMap fun
    | .call f => some f
    | _ => none

/-- The key shares submitted to the unseal endpoint, in order. -/
def submitted (tr : List Event) : List String :=
  tr.filterMap fun
    | .httpDo ⟨_, _, .unsealKey r⟩ => some r.Key
    | _ => none

/-- The calls to `KMSService.Encrypt`, by plaintext. -/
def encrypts (tr : List Event) : List Bytes :=
  tr.filterMap fun
    | .kmsEncrypt _ p => some p
    | _ => none

/-- The calls to `S3Service.PutObject`, as key and body. -/
def puts (tr : List Event) : List (String × Bytes) :=
  tr.filterMap fun
    | .s3Put _ k b => some (k, b)
    | _ => none

/-- The sleeps, in order. -/
def sleeps (tr : List Event) : List Int :=
  tr.filterMap fun
    | .sleep d => some d
    | _ => none

/-- The write errors logged (main.go:216 and main.go:230). -/
def writeErrors (tr : List Event) : List Error :=
  tr.filterMap fun
    | .log (.cannotWriteRootToken _ _ e) => some e
    | .log (.cannotWriteUnsealKeys _ _ e) => some e
    | _ => none

/-- The errors the unseal loop logged (main.go:292). -/
def unsealErrors (tr : List Event) : List Error :=
  tr.filterMap fun
    | .log (.unsealOneErr e) => some e
    | _ => none

/-! ## Answers of the services, as the claims speak of them -/

/-- What the bucket and KMS hand a run of unsealing: the init response, when the
object is fetched, decrypted without error, decoded and parsed (main.go:253-283). -/
def escrowedInitResponse (lib : Lib) (cfg : Config) (svc : Services) : Option InitResponse :=
  match svc.GetObject cfg.s3BucketName "unseal-keys.json.enc" with
  | .error _ => none
  | .ok (data, _) =>
    match svc.Decrypt data with
    | (_, some _) => none
    | (out, none) =>
      match DecodeString out.Plaintext with
      | none => none
      | some plain =>
        match lib.UnmarshalInitResponse plain with
        | .error _ => none
        | .ok ir => some ir

/-- The status code answered to submission `n` of the run, carrying `key`, when
the request is built and the exchange succeeds. -/
def submissionStatus (lib : Lib) (cfg : Config) (svc : Services) (n : Nat) (key : String) :
    Option Nat :=
  match lib.NewRequest "PUT" (cfg.vaultAddr ++ "/v1/sys/unseal") with
  | some _ => none
  | none =>
    match svc.Do n (unsealRequest cfg key) with
    | .error _ => none
    | .ok response => some response.StatusCode

/-- The `sealed` field answered to submission `n` of the run, carrying `key`,
when the status is 200 and the body is read to the end and parses. -/
def submissionSealed (lib : Lib) (cfg : Config) (svc : Services) (n : Nat) (key : String) :
    Option Bool :=
  match lib.NewRequest "PUT" (cfg.vaultAddr ++ "/v1/sys/unseal") with
  | some _ => none
  | none =>
    match svc.Do n (unsealRequest cfg key) with
    | .error _ => none
    | .ok response =>
      if response.StatusCode ≠ 200 then none
      else
        match response.Body with
        | (_, some _) => none
        | (body, none) =>
          match lib.UnmarshalUnsealResponse body with
          | .error _ => none
          | .ok unsealResponse => some unsealResponse.Sealed

/-! ## A concrete world, for evaluation -/

/-- A configuration. -/
def demoConfig : Config :=
  { vaultAddr := "https://127.0.0.1:8200", checkIntervalDuration := 10000000000,
    s3BucketName := "bucket", kmsKeyId := "key" }

/-- A library that builds every request, reads every init body as the same
five-share response, and reads an unseal body as sealed unless it is empty. -/
def demoLib : Lib :=
  { NewRequest := fun _ _ => none,
    UnmarshalInitResponse := fun _ =>
      .ok ⟨["r0", "r1", "r2", "r3", "r4"], ["k0", "k1", "k2", "k3", "k4"], "token"⟩,
    UnmarshalUnsealResponse := fun body => .ok ⟨body ≠ [], 3, 5, 0⟩ }

/-- Services in which everything succeeds: KMS is the identity, the bucket
holds the base64 text `e30=`, the init endpoint answers 200, and the unseal
endpoint answers 200 with `sealed` true on the first `flip` submissions and
false from then on. -/
def demoServices (flip : Nat) : Services :=
  { Do := fun n r =>
      match r.Body with
      | .init _ => .ok ⟨200, ([123, 125], none)⟩
      | .unsealKey _ => .ok ⟨200, (if n < flip then [1] else [], none)⟩,
    NewSession := none,
    Encrypt := fun _ _ p => (⟨p⟩, none),
    Decrypt := fun c => (⟨c⟩, none),
    PutObject := fun _ _ _ _ => none,
    GetObject := fun _ _ => .ok ([101, 51, 48, 61], none) }

/-- The services of `demoServices`, except that the unseal endpoint answers
submission `bad` with status 500. -/
def demoServicesStatus500 (bad : Nat) : Services :=
  { demoServices (bad + 1) with
    Do := fun n r =>
      match r.Body with
      | .init _ => .ok ⟨200, ([123, 125], none)⟩
      | .unsealKey _ => if n = bad then .ok ⟨500, ([], none)⟩ else .ok ⟨200, ([1], none)⟩ }

/-- The services of `demoServices`, except that every call to `Encrypt` fails
and returns an empty output next to the error. -/
def demoServicesKmsDown : Services :=
  { demoServices 0 with Encrypt := fun _ _ _ => (⟨[]⟩, some "AccessDeniedException") }

/-- The services of `demoServices`, except that the first `PutObject` fails. -/
def demoServicesFirstPutFails : Services :=
  { demoServices 0 with
    PutObject := fun n _ _ _ => if n = 0 then some "AccessDenied" else none }

/-- The services of `demoServices`, except that the init endpoint answers 400. -/
def demoServicesInit400 : Services :=
  { demoServices 0 with Do := fun _ _ => .ok ⟨400, ([], none)⟩ }

/-- The services of `demoServices`, except that `session.NewSession()` fails. -/
def demoServicesNoSession : Services :=
  { demoServices 0 with NewSession := some "NoCredentialProviders" }

/-- The services of `demoServices 5`, except that reading the body of the
fetched object fails after the bytes `e30=`. -/
def demoServicesReadError : Services :=
  { demoServices 5 with GetObject := fun _ _ => .ok ([101, 51, 48, 61], some "unexpected EOF") }

/-- The services of `demoServices`, except that `GetObject` fails. -/
def demoServicesNoObject : Services :=
  { demoServices 0 with GetObject := fun _ _ => .error "NoSuchKey" }

/-- A world in which the probe of every iteration is answered with `code`. -/
def demoWorld (code : Nat) : Nat → Tick :=
  fun _ => { Get := .ok ⟨code, ([], none)⟩, initServices := demoServices 0,
             unsealServices := demoServices 2 }

/-- A world in which every probe is answered 501 and no session can be created. -/
def demoWorldNoSession : Nat → Tick :=
  fun _ => { Get := .ok ⟨501, ([], none)⟩, initServices := demoServicesNoSession,
             unsealServices := demoServicesNoSession }

/-- A world in which the probe of every iteration fails. -/
def demoWorldDown : Nat → Tick :=
  fun _ => { Get := .error "connection refused", initServices := demoServices 0,
             unsealServices := demoServices 2 }

theorem decodeMap_encodeStd (s : Nat) (h : s < 64) : decodeMap (encodeStd s) = some s := by
  unfold encodeStd decodeMap
  split_ifs <;> first | omega | (simp; omega) | simp

theorem encodeStd_range (s : Nat) : 43 ≤ encodeStd s ∧ encodeStd s ≤ 122 ∧ encodeStd s ≠ 61 := by
  unfold encodeStd
  split_ifs <;> omega

theorem filter_EncodeToString (b : Bytes) :
    (EncodeToString b).filter (fun c => c ≠ 10 ∧ c ≠ 13) = EncodeToString b := by
  rw [List.filter_eq_self]
  intro c hc
  induction b using EncodeToString.induct with
  | case1 => simp [EncodeToString] at hc
  | case2 a =>
    simp only [EncodeToString, List.mem_cons, List.mem_singleton, padChar] at hc
    have h1 := encodeStd_range (a * 65536 / 262144 % 64)
    have h2 := encodeStd_range (a * 65536 / 4096 % 64)
    simp
    rcases hc with hc | hc | hc | hc | hc <;> first | omega | simp at hc
  | case3 a b =>
    simp only [EncodeToString, List.mem_cons, List.mem_singleton, padChar] at hc
    have h1 := encodeStd_range ((a * 65536 + b * 256) / 262144 % 64)
    have h2 := encodeStd_range ((a * 65536 + b * 256) / 4096 % 64)
    have h3 := encodeStd_range ((a * 65536 + b * 256) / 64 % 64)
    simp
    rcases hc with hc | hc | hc | hc | hc <;> first | omega | simp at hc
  | case4 a b c' rest ih =>
    simp only [EncodeToString, List.mem_cons] at hc
    have h1 := encodeStd_range ((a * 65536 + b * 256 + c') / 262144 % 64)
    have h2 := encodeStd_range ((a * 65536 + b * 256 + c') / 4096 % 64)
    have h3 := encodeStd_range ((a * 65536 + b * 256 + c') / 64 % 64)
    have h4 := encodeStd_range ((a * 65536 + b * 256 + c') % 64)
    rcases hc with hc | hc | hc | hc | hc
    · simp; omega
    · simp; omega
    · simp; omega
    · simp; omega
    · exact ih hc

theorem decodeQuanta_EncodeToString (b : Bytes) (hb : IsBytes b) :
    decodeQuanta (EncodeToString b) = some b := by
  induction b using EncodeToString.induct with
  | case1 => simp [EncodeToString, decodeQuanta]
  | case2 a =>
    have ha : a < 256 := hb a (by simp)
    simp only [EncodeToString, decodeQuanta]
    rw [decodeMap_encodeStd _ (Nat.mod_lt _ (by norm_num)),
      decodeMap_encodeStd _ (Nat.mod_lt _ (by norm_num))]
    simp [padChar, decodeMap]
    omega
  | case3 a b =>
    have ha : a < 256 := hb a (by simp)
    have hb' : b < 256 := hb b (by simp)
    simp only [EncodeToString, decodeQuanta]
    rw [decodeMap_encodeStd _ (Nat.mod_lt _ (by norm_num)),
      decodeMap_encodeStd _ (Nat.mod_lt _ (by norm_num)),
      decodeMap_encodeStd _ (Nat.mod_lt _ (by norm_num))]
    simp [padChar, decodeMap]
    omega
  | case4 a b c rest ih =>
    have ha : a < 256 := hb a (by simp)
    have hb' : b < 256 := hb b (by simp)
    have hc : c < 256 := hb c (by simp)
    have hr : IsBytes rest := fun x hx => hb x (by simp [hx])
    simp only [EncodeToString, decodeQuanta]
    rw [decodeMap_encodeStd _ (Nat.mod_lt _ (by norm_num)),
      decodeMap_encodeStd _ (Nat.mod_lt _ (by norm_num)),
      decodeMap_encodeStd _ (Nat.mod_lt _ (by norm_num)),
      decodeMap_encodeStd _ (Nat.mod_lt _ (by norm_num)), ih hr]
    simp
    omega

theorem DecodeString_EncodeToString (b : Bytes) (hb : IsBytes b) :
    DecodeString (EncodeToString b) = some b := by
  unfold DecodeString
  rw [filter_EncodeToString, decodeQuanta_EncodeToString b hb]

/-! ## Observations: computation rules -/

theorem flows_nil : flows [] = [] := rfl

theorem flows_cons (e : Event) (tr : List Event) :
    flows (e :: tr) = (match e with | .call f => [f] | _ => []) ++ flows tr := by
  cases e <;> simp [flows, List.filterMap_cons]

theorem flows_append (a b : List Event) : flows (a ++ b) = flows a ++ flows b := by
  simp [flows]

theorem submitted_nil : submitted [] = [] := rfl

theorem submitted_cons (e : Event) (tr : List Event) :
    submitted (e :: tr) =
      (match e with | .httpDo ⟨_, _, .unsealKey r⟩ => [r.Key] | _ => []) ++ submitted tr := by
  rcases e with _ | _ | _ | ⟨_, _, _ | _⟩ | _ | _ | _ | _ | _ | _ <;>
    simp [submitted, List.filterMap_cons]

theorem submitted_append (a b : List Event) :
    submitted (a ++ b) = submitted a ++ submitted b := by
  simp [submitted]

theorem encrypts_nil : encrypts [] = [] := rfl

theorem encrypts_cons (e : Event) (tr : List Event) :
    encrypts (e :: tr) = (match e with | .kmsEncrypt _ p => [p] | _ => []) ++ encrypts tr := by
  cases e <;> simp [encrypts, List.filterMap_cons]

theorem encrypts_append (a b : List Event) :
    encrypts (a ++ b) = encrypts a ++ encrypts b := by
  simp [encrypts]

theorem puts_nil : puts [] = [] := rfl

theorem puts_cons (e : Event) (tr : List Event) :
    puts (e :: tr) = (match e with | .s3Put _ k b => [(k, b)] | _ => []) ++ puts tr := by
  cases e <;> simp [puts, List.filterMap_cons]

theorem puts_append (a b : List Event) : puts (a ++ b) = puts a ++ puts b := by
  simp [puts]

theorem sleeps_nil : sleeps [] = [] := rfl

theorem sleeps_cons (e : Event) (tr : List Event) :
    sleeps (e :: tr) = (match e with | .sleep d => [d] | _ => []) ++ sleeps tr := by
  cases e <;> simp [sleeps, List.filterMap_cons]

theorem sleeps_append (a b : List Event) : sleeps (a ++ b) = sleeps a ++ sleeps b := by
  simp [sleeps]

theorem writeErrors_nil : writeErrors [] = [] := rfl

theorem writeErrors_cons (e : Event) (tr : List Event) :
    writeErrors (e :: tr) =
      (match e with
        | .log (.cannotWriteRootToken _ _ x) => [x]
        | .log (.cannotWriteUnsealKeys _ _ x) => [x]
        | _ => []) ++ writeErrors tr := by
  cases e with
  | log l => cases l <;> simp [writeErrors, List.filterMap_cons]
  | _ => simp [writeErrors, List.filterMap_cons]

theorem writeErrors_append (a b : List Event) :
    writeErrors (a ++ b) = writeErrors a ++ writeErrors b := by
  simp [writeErrors]

theorem unsealErrors_nil : unsealErrors [] = [] := rfl

theorem unsealErrors_cons (e : Event) (tr : List Event) :
    unsealErrors (e :: tr) =
      (match e with | .log (.unsealOneErr x) => [x] | _ => []) ++ unsealErrors tr := by
  cases e with
  | log l => cases l <;> simp [unsealErrors, List.filterMap_cons]
  | _ => simp [unsealErrors, List.filterMap_cons]

theorem unsealErrors_append (a b : List Event) :
    unsealErrors (a ++ b) = unsealErrors a ++ unsealErrors b := by
  simp [unsealErrors]

/-! ## The polling loop -/

theorem iteration_head (lib : Lib) (cfg : Config) (t : Tick) :
    ∃ rest, iteration lib cfg t = .httpGet (cfg.vaultAddr ++ "/v1/sys/health") :: rest := by
  cases h : t.Get with
  | error err => exact ⟨_, by simp only [iteration, h]; rfl⟩
  | ok response =>
    simp only [iteration, h]
    split_ifs <;> exact ⟨_, rfl⟩

/-- C9: when the health probe fails with a transport error the iteration is the
probe, one log line with the error and one sleep of the poll interval; no flow
is invoked, and the next event of the loop is the next probe. -/
theorem C9_probe_error_single_sleep (lib : Lib) (cfg : Config) (world : Nat → Tick)
    (k : Nat) (err : Error) (h : (world k).Get = .error err) :
    iteration lib cfg (world k) =
        [.httpGet (cfg.vaultAddr ++ "/v1/sys/health"), .log (.probeErr err),
          .sleep cfg.checkIntervalDuration]
      ∧ flows (iteration lib cfg (world k)) = []
      ∧ sleeps (iteration lib cfg (world k)) = [cfg.checkIntervalDuration]
      ∧ ∃ rest, mainLoop lib cfg world (k + 2) =
          mainLoop lib cfg world k ++
            [.httpGet (cfg.vaultAddr ++ "/v1/sys/health"), .log (.probeErr err),
              .sleep cfg.checkIntervalDuration,
              .httpGet (cfg.vaultAddr ++ "/v1/sys/health")] ++ rest := by
  have e : iteration lib cfg (world k) =
      [.httpGet (cfg.vaultAddr ++ "/v1/sys/health"), .log (.probeErr err),
        .sleep cfg.checkIntervalDuration] := by
    unfold iteration
    simp [h]
  refine ⟨e, ?_, ?_, ?_⟩
  · rw [e]; simp [flows_cons, flows_nil]
  · rw [e]; simp [sleeps_cons, sleeps_nil]
  · obtain ⟨rest, hrest⟩ := iteration_head lib cfg (world (k + 1))
    refine ⟨rest, ?_⟩
    simp only [mainLoop, e, hrest]
    simp

/-- C3: when the request to the init endpoint fails at the transport level or
is answered with a status other than 200, the run of initialization makes no
call to `Encrypt` and no call to `PutObject`. -/
theorem C3_init_failure_no_escrow (lib : Lib) (cfg : Config) (svc : Services)
    (h : (∃ e, svc.Do 0 (initRequest cfg) = .error e) ∨
         (∃ r, svc.Do 0 (initRequest cfg) = .ok r ∧ r.StatusCode ≠ 200)) :
    encrypts (initializeVault lib cfg svc) = [] ∧ puts (initializeVault lib cfg svc) = [] := by
  unfold initializeVault
  rcases h with ⟨e, he⟩ | ⟨r, hr, hs⟩
  · simp only [he]
    split <;> simp [encrypts_cons, encrypts_nil, puts_cons, puts_nil]
  · simp only [hr]
    split
    · simp [encrypts_cons, encrypts_nil, puts_cons, puts_nil]
    · split
      · simp [encrypts_cons, encrypts_nil, puts_cons, puts_nil]
      · simp [hs, encrypts_cons, encrypts_nil, puts_cons, puts_nil]

theorem submitted_logIfErr (mk : Error → LogLine) (err : Option Error) :
    submitted (logIfErr mk err) = [] := by
  unfold logIfErr; split <;> simp [submitted_cons, submitted_nil]

/-- When `GetObject` fails, or decryption fails, or the plaintext is not standard
base64, or the decoded bytes do not parse, the run of unsealing submits nothing. -/
theorem unsealVault_load_failure_no_submission (lib : Lib) (cfg : Config) (svc : Services)
    (h : (∃ e, svc.GetObject cfg.s3BucketName "unseal-keys.json.enc" = .error e) ∨
         (∃ data readErr, svc.GetObject cfg.s3BucketName "unseal-keys.json.enc"
              = .ok (data, readErr) ∧
            ((∃ e, (svc.Decrypt data).2 = some e) ∨
             DecodeString (svc.Decrypt data).1.Plaintext = none ∨
             (∃ plain e, DecodeString (svc.Decrypt data).1.Plaintext = some plain ∧
                lib.UnmarshalInitResponse plain = .error e)))) :
    submitted (unsealVault lib cfg svc) = [] := by
  unfold unsealVault
  cases hs : svc.NewSession with
  | some e => simp [submitted_cons, submitted_nil]
  | none =>
    simp only []
    rcases h with ⟨e, he⟩ | ⟨data, readErr, hget, h⟩
    · simp [he, submitted_cons, submitted_nil]
    · simp only [hget]
      rcases hd : svc.Decrypt data with ⟨out, derr⟩
      rw [hd] at h
      simp only at h
      rcases h with ⟨e, he⟩ | h | ⟨plain, e, hp, hu⟩
      · subst he
        simp [submitted_append, submitted_cons, submitted_nil, submitted_logIfErr]
      · cases derr <;>
          simp [h, submitted_append, submitted_cons, submitted_nil, submitted_logIfErr]
      · cases derr <;>
          simp [hp, hu, submitted_append, submitted_cons, submitted_nil, submitted_logIfErr]

theorem puts_logIfErr (mk : Error → LogLine) (err : Option Error) :
    puts (logIfErr mk err) = [] := by
  unfold logIfErr; split <;> simp [puts_cons, puts_nil]

theorem puts_putLog (bad : Error → LogLine) (good : LogLine) (err : Option Error) :
    puts (putLog bad good err) = [] := by
  unfold putLog; split <;> simp [puts_cons, puts_nil]

theorem puts_escrow (cfg : Config) (svc : Services) (body : Bytes) (ir : InitResponse)
    (hsession : svc.NewSession = none) :
    puts (escrow cfg svc body ir) =
      [("root-token.json.enc",
          (svc.Encrypt 0 cfg.kmsKeyId (goBytes ir.RootToken)).1.CiphertextBlob),
       ("unseal-keys.json.enc",
          (svc.Encrypt 1 cfg.kmsKeyId (EncodeToString body)).1.CiphertextBlob)] := by
  simp [escrow, hsession, puts_append, puts_cons, puts_nil, puts_logIfErr,
    puts_putLog]

theorem initializeVault_reaches_store (lib : Lib) (cfg : Config) (svc : Services)
    (body : Bytes) (ir : InitResponse)
    (hreq : lib.NewRequest "PUT" (cfg.vaultAddr ++ "/v1/sys/init") = none)
    (hdo : svc.Do 0 (initRequest cfg) = .ok ⟨200, (body, none)⟩)
    (hparse : lib.UnmarshalInitResponse body = .ok ir) :
    initializeVault lib cfg svc = .httpDo (initRequest cfg) :: escrow cfg svc body ir := by
  unfold initializeVault
  simp [hreq, hdo, hparse]

/-- C7: in a run of initialization that reaches the store step (the init
response is parsed and the session is created), the put of
root-token.json.enc is attempted first and the put of unseal-keys.json.enc after
it, whatever the first put answers; when the first put fails and the second
succeeds, exactly one write error is logged and the success of the unseal-keys
write is logged. -/
theorem C7_both_puts_attempted (lib : Lib) (cfg : Config) (svc : Services)
    (body : Bytes) (ir : InitResponse)
    (hreq : lib.NewRequest "PUT" (cfg.vaultAddr ++ "/v1/sys/init") = none)
    (hdo : svc.Do 0 (initRequest cfg) = .ok ⟨200, (body, none)⟩)
    (hparse : lib.UnmarshalInitResponse body = .ok ir)
    (hsession : svc.NewSession = none) :
    puts (initializeVault lib cfg svc) =
        [("root-token.json.enc",
            (svc.Encrypt 0 cfg.kmsKeyId (goBytes ir.RootToken)).1.CiphertextBlob),
         ("unseal-keys.json.enc",
            (svc.Encrypt 1 cfg.kmsKeyId (EncodeToString body)).1.CiphertextBlob)]
      ∧ ∀ e,
          svc.PutObject 0 cfg.s3BucketName "root-token.json.enc"
              (svc.Encrypt 0 cfg.kmsKeyId (goBytes ir.RootToken)).1.CiphertextBlob = some e →
          svc.PutObject 1 cfg.s3BucketName "unseal-keys.json.enc"
              (svc.Encrypt 1 cfg.kmsKeyId (EncodeToString body)).1.CiphertextBlob = none →
          writeErrors (initializeVault lib cfg svc) = [e]
            ∧ Event.log (.unsealKeysWritten cfg.s3BucketName "unseal-keys.json.enc")
                ∈ initializeVault lib cfg svc := by
  rw [initializeVault_reaches_store lib cfg svc body ir hreq hdo hparse]
  refine ⟨by simp [puts_cons, puts_escrow cfg svc body ir hsession], ?_⟩
  intro e h0 h1
  constructor
  · simp only [escrow, hsession, h0, h1, putLog, logIfErr]
    cases (svc.Encrypt 0 cfg.kmsKeyId (goBytes ir.RootToken)).2 <;>
      cases (svc.Encrypt 1 cfg.kmsKeyId (EncodeToString body)).2 <;>
      simp [writeErrors_append, writeErrors_cons, writeErrors_nil]
  · simp [escrow, hsession, h1, putLog]

/-! ## The unseal loop -/

theorem unsealOne_cases (lib : Lib) (cfg : Config) (svc : Services) (n : Nat) (key : String) :
    (∃ e, unsealOne lib cfg svc n key = ([], false, some e)) ∨
    (∃ e, unsealOne lib cfg svc n key = ([.httpDo (unsealRequest cfg key)], false, some e)) ∨
    unsealOne lib cfg svc n key = ([.httpDo (unsealRequest cfg key)], true, none) ∨
    unsealOne lib cfg svc n key = ([.httpDo (unsealRequest cfg key)], false, none) := by
  unfold unsealOne
  repeat' split
  all_goals simp

theorem unsealOne_of_sealed (lib : Lib) (cfg : Config) (svc : Services) (n : Nat)
    (key : String) (s : Bool) (h : submissionSealed lib cfg svc n key = some s) :
    unsealOne lib cfg svc n key = ([.httpDo (unsealRequest cfg key)], !s, none) := by
  unfold submissionSealed at h
  unfold unsealOne
  cases h1 : lib.NewRequest "PUT" (cfg.vaultAddr ++ "/v1/sys/unseal") with
  | some e => simp [h1] at h
  | none =>
    cases h2 : svc.Do n (unsealRequest cfg key) with
    | error e => simp [h1, h2] at h
    | ok r =>
      simp only [h1, h2] at h ⊢
      by_cases hs : r.StatusCode = 200
      · rcases hb : r.Body with ⟨body, _ | e⟩
        · cases hu : lib.UnmarshalUnsealResponse body with
          | error e => simp [hs, hb, hu] at h
          | ok u =>
            simp [hs, hb, hu] at h
            subst h
            cases hsl : u.Sealed <;> simp [hs, hb, hu, hsl]
        · simp [hs, hb] at h
      · simp [hs] at h

theorem unsealOne_of_status (lib : Lib) (cfg : Config) (svc : Services) (n : Nat)
    (key : String) (c : Nat) (h : submissionStatus lib cfg svc n key = some c) (hc : c ≠ 200) :
    unsealOne lib cfg svc n key =
      ([.httpDo (unsealRequest cfg key)], false,
        some ("unseal: non-200 status code: " ++ toString c)) := by
  unfold submissionStatus at h
  unfold unsealOne
  cases h1 : lib.NewRequest "PUT" (cfg.vaultAddr ++ "/v1/sys/unseal") with
  | some e => simp [h1] at h
  | none =>
    cases h2 : svc.Do n (unsealRequest cfg key) with
    | error e => simp [h1, h2] at h
    | ok r =>
      simp [h1, h2] at h
      subst h
      simp [hc]

theorem unsealLoop_sealed_upto (lib : Lib) (cfg : Config) (svc : Services) (i : Nat) :
    ∀ (n : Nat) (keys : List String), i ≤ keys.length →
      (∀ j k, j < i → keys[j]? = some k → submissionSealed lib cfg svc (n + j) k = some true) →
      unsealLoop lib cfg svc n keys =
        (keys.take i).map (fun k => Event.httpDo (unsealRequest cfg k)) ++
          unsealLoop lib cfg svc (n + i) (keys.drop i) := by
  induction i with
  | zero => intro n keys _ _; simp
  | succ i ih =>
    intro n keys hlen hs
    cases keys with
    | nil => simp at hlen
    | cons key rest =>
      have h0 := unsealOne_of_sealed lib cfg svc n key true (hs 0 key (by omega) (by simp))
      have hrest := ih (n + 1) rest (by simpa using hlen) (by
        intro j k hj hk
        have := hs (j + 1) k (by omega) (by simpa using hk)
        rwa [show n + (j + 1) = n + 1 + j by omega] at this)
      simp only [unsealLoop, h0]
      simp only [Bool.not_true, Bool.false_eq_true, if_false, List.take_succ_cons,
        List.map_cons, List.drop_succ_cons, List.cons_append, List.nil_append]
      rw [hrest, show n + 1 + i = n + (i + 1) by omega]

theorem submitted_map_unsealRequest (cfg : Config) (keys : List String) :
    submitted (keys.map fun k => Event.httpDo (unsealRequest cfg k)) = keys := by
  induction keys with
  | nil => rfl
  | cons k rest ih =>
    rw [List.map_cons, submitted_cons, ih]
    simp [unsealRequest]

theorem unsealErrors_map_unsealRequest (cfg : Config) (keys : List String) :
    unsealErrors (keys.map fun k => Event.httpDo (unsealRequest cfg k)) = [] := by
  induction keys with
  | nil => rfl
  | cons k rest ih => simp [unsealErrors_cons, ih]

theorem submitted_unsealLoop_initial (lib : Lib) (cfg : Config) (svc : Services) :
    ∀ (keys : List String) (n : Nat), submitted (unsealLoop lib cfg svc n keys) <+: keys := by
  intro keys
  induction keys with
  | nil => intro n; simp [unsealLoop, submitted_nil]
  | cons key rest ih =>
    intro n
    simp only [unsealLoop]
    rcases unsealOne_cases lib cfg svc n key with ⟨e, h⟩ | ⟨e, h⟩ | h | h <;> rw [h]
    · simp [submitted_cons, submitted_nil]
    · simp [submitted_cons, submitted_nil, unsealRequest]
    · simp [submitted_cons, submitted_nil, unsealRequest]
    · simpa [submitted_cons, submitted_nil, submitted_append, unsealRequest,
        List.prefix_cons_inj] using ih (n + 1)

theorem unsealVault_of_escrowed (lib : Lib) (cfg : Config) (svc : Services)
    (ir : InitResponse) (hsession : svc.NewSession = none)
    (h : escrowedInitResponse lib cfg svc = some ir) :
    ∃ head, submitted head = [] ∧ unsealErrors head = [] ∧
      unsealVault lib cfg svc = head ++ unsealLoop lib cfg svc 0 ir.KeysBase64 := by
  unfold escrowedInitResponse at h
  unfold unsealVault
  simp only [hsession]
  cases h1 : svc.GetObject cfg.s3BucketName "unseal-keys.json.enc" with
  | error e => simp [h1] at h
  | ok got =>
    obtain ⟨data, rerr⟩ := got
    rcases h2 : svc.Decrypt data with ⟨out, _ | e⟩
    · cases h3 : DecodeString out.Plaintext with
      | none => simp [h1, h2, h3] at h
      | some plain =>
        cases h4 : lib.UnmarshalInitResponse plain with
        | error e => simp [h1, h2, h3, h4] at h
        | ok ir0 =>
          simp [h1, h2, h3, h4] at h
          subst h
          simp only [h2, h3, h4]
          refine ⟨_, ?_, ?_, rfl⟩
          · simp [submitted_append, submitted_cons, submitted_nil,
              submitted_logIfErr]
          · cases rerr <;>
              simp [logIfErr, unsealErrors_append, unsealErrors_cons, unsealErrors_nil]
    · simp [h1, h2] at h

/-! ## The claims about the unseal loop -/

theorem unsealVault_sealed_upto (lib : Lib) (cfg : Config) (svc : Services)
    (ir : InitResponse) (i : Nat)
    (hsession : svc.NewSession = none)
    (hload : escrowedInitResponse lib cfg svc = some ir)
    (hi : i < ir.KeysBase64.length)
    (hsealed : ∀ j k, j < i → ir.KeysBase64[j]? = some k →
      submissionSealed lib cfg svc j k = some true) :
    ∃ head key rest, submitted head = [] ∧ unsealErrors head = [] ∧
      ir.KeysBase64[i]? = some key ∧
      ir.KeysBase64.take (i + 1) = ir.KeysBase64.take i ++ [key] ∧
      unsealVault lib cfg svc =
        head ++ ((ir.KeysBase64.take i).map (fun k => Event.httpDo (unsealRequest cfg k)) ++
          unsealLoop lib cfg svc i (key :: rest)) := by
  obtain ⟨head, hs, he, hrun⟩ := unsealVault_of_escrowed lib cfg svc ir hsession hload
  have hpre := unsealLoop_sealed_upto lib cfg svc i 0 ir.KeysBase64 (by omega)
    (by intro j k hj hk; simpa using hsealed j k hj hk)
  obtain ⟨key, rest, hdrop⟩ : ∃ key rest, ir.KeysBase64.drop i = key :: rest := by
    cases hd : ir.KeysBase64.drop i with
    | nil => simp [List.drop_eq_nil_iff] at hd; omega
    | cons key rest => exact ⟨key, rest, rfl⟩
  have hkey : ir.KeysBase64[i]? = some key := by
    have := congrArg (fun l => l[0]?) hdrop
    simpa using this
  have htake : ir.KeysBase64.take (i + 1) = ir.KeysBase64.take i ++ [key] := by
    rw [List.take_succ, hkey]; rfl
  refine ⟨head, key, rest, hs, he, hkey, htake, ?_⟩
  rw [hrun, hpre, Nat.zero_add, hdrop]

/-- C2: when the session is created and the escrowed shares are read back,
submissions 0..i-1 are answered
200 with sealed true and submission i is answered 200 with sealed false, the run
of unsealing submits exactly the shares 0..i in stored order and logs no error
of the loop. -/
theorem C2_stops_at_first_unsealed (lib : Lib) (cfg : Config) (svc : Services)
    (ir : InitResponse) (i : Nat)
    (hsession : svc.NewSession = none)
    (hload : escrowedInitResponse lib cfg svc = some ir)
    (hi : i < ir.KeysBase64.length)
    (hsealed : ∀ j k, j < i → ir.KeysBase64[j]? = some k →
      submissionSealed lib cfg svc j k = some true)
    (hflip : ∀ k, ir.KeysBase64[i]? = some k →
      submissionSealed lib cfg svc i k = some false) :
    submitted (unsealVault lib cfg svc) = ir.KeysBase64.take (i + 1)
      ∧ unsealErrors (unsealVault lib cfg svc) = [] := by
  obtain ⟨head, key, rest, hs, he, hkey, htake, hrun⟩ :=
    unsealVault_sealed_upto lib cfg svc ir i hsession hload hi hsealed
  have hone := unsealOne_of_sealed lib cfg svc i key false (hflip key hkey)
  rw [hrun, htake]
  simp only [unsealLoop, hone]
  constructor
  · rw [submitted_append, submitted_append, hs, submitted_map_unsealRequest]
    simp [submitted_cons, submitted_nil, unsealRequest]
  · rw [unsealErrors_append, unsealErrors_append, he, unsealErrors_map_unsealRequest]
    simp [unsealErrors_cons, unsealErrors_nil]

/-- C6: when the session is created and the escrowed shares are read back,
submissions 0..i-1 are answered
200 with sealed true and submission i is answered with a status c other than
200, then `unsealOne` returns done = false with an error for share i, and the run
submits exactly the shares 0..i and logs that one error. -/
theorem C6_non200_aborts_run (lib : Lib) (cfg : Config) (svc : Services)
    (ir : InitResponse) (i c : Nat)
    (hsession : svc.NewSession = none)
    (hload : escrowedInitResponse lib cfg svc = some ir)
    (hi : i < ir.KeysBase64.length)
    (hsealed : ∀ j k, j < i → ir.KeysBase64[j]? = some k →
      submissionSealed lib cfg svc j k = some true)
    (hc : c ≠ 200)
    (hbad : ∀ k, ir.KeysBase64[i]? = some k → submissionStatus lib cfg svc i k = some c) :
    (∀ k, ir.KeysBase64[i]? = some k →
        (unsealOne lib cfg svc i k).2.1 = false ∧
        (unsealOne lib cfg svc i k).2.2 =
          some ("unseal: non-200 status code: " ++ toString c))
      ∧ submitted (unsealVault lib cfg svc) = ir.KeysBase64.take (i + 1)
      ∧ unsealErrors (unsealVault lib cfg svc) =
          ["unseal: non-200 status code: " ++ toString c] := by
  obtain ⟨head, key, rest, hs, he, hkey, htake, hrun⟩ :=
    unsealVault_sealed_upto lib cfg svc ir i hsession hload hi hsealed
  have hone := unsealOne_of_status lib cfg svc i key c (hbad key hkey) hc
  refine ⟨?_, ?_, ?_⟩
  · intro k hk
    rw [unsealOne_of_status lib cfg svc i k c (hbad k hk) hc]
    exact ⟨rfl, rfl⟩
  · rw [hrun, htake]
    simp only [unsealLoop, hone]
    rw [submitted_append, submitted_append, hs, submitted_map_unsealRequest]
    simp [submitted_cons, submitted_nil, unsealRequest]
  · rw [hrun]
    simp only [unsealLoop, hone]
    rw [unsealErrors_append, unsealErrors_append, he, unsealErrors_map_unsealRequest]
    simp [unsealErrors_cons, unsealErrors_nil]

/-- C10: when the bucket and KMS hand back the escrowed shares, a run of unsealing
never submits more shares than the list holds (what it submits is an initial
segment of the list); and when the session is created and every submission is
answered 200 with sealed true, the run submits every share once in stored order
and logs no error of the loop. -/
theorem C10_exhausts_shares_silently (lib : Lib) (cfg : Config) (svc : Services)
    (ir : InitResponse) (hload : escrowedInitResponse lib cfg svc = some ir) :
    submitted (unsealVault lib cfg svc) <+: ir.KeysBase64
      ∧ (submitted (unsealVault lib cfg svc)).length ≤ ir.KeysBase64.length
      ∧ (svc.NewSession = none →
          (∀ j k, ir.KeysBase64[j]? = some k →
            submissionSealed lib cfg svc j k = some true) →
          submitted (unsealVault lib cfg svc) = ir.KeysBase64
            ∧ unsealErrors (unsealVault lib cfg svc) = []) := by
  have hp : submitted (unsealVault lib cfg svc) <+: ir.KeysBase64 := by
    cases hsession : svc.NewSession with
    | some e =>
      have : submitted (unsealVault lib cfg svc) = [] := by
        unfold unsealVault
        simp [hsession, submitted_cons, submitted_nil]
      rw [this]
      exact List.nil_prefix
    | none =>
      obtain ⟨head, hs, _, hrun⟩ := unsealVault_of_escrowed lib cfg svc ir hsession hload
      rw [hrun, submitted_append, hs, List.nil_append]
      exact submitted_unsealLoop_initial lib cfg svc ir.KeysBase64 0
  refine ⟨hp, hp.length_le, ?_⟩
  intro hsession hall
  obtain ⟨head, hs, he, hrun⟩ := unsealVault_of_escrowed lib cfg svc ir hsession hload
  have hpre := unsealLoop_sealed_upto lib cfg svc ir.KeysBase64.length 0 ir.KeysBase64
    (le_refl _) (by intro j k _ hk; simpa using hall j k hk)
  rw [hrun, hpre, List.take_length, List.drop_length]
  simp only [unsealLoop, List.append_nil]
  constructor
  · rw [submitted_append, hs, submitted_map_unsealRequest, List.nil_append]
  · rw [unsealErrors_append, he, unsealErrors_map_unsealRequest, List.nil_append]

/-! ## The escrow round trip -/

/-- C8: for a crypto client whose decryption inverts its encryption, and every
byte payload b: decrypting and base64-decoding the ciphertext that
initialization makes of b (base64 text of b, encrypted) succeeds and gives b
back; so when initialization received b and parsed it to ir, and both runs
create their session, the blob initialization puts under unseal-keys.json.enc
leads a run of unsealing that fetches it to loop over the shares of the same ir. -/
theorem C8_escrow_round_trip (lib : Lib) (cfg : Config) (svcI svcU : Services) (b : Bytes)
    (hb : IsBytes b)
    (hcrypto : ∀ n p, svcU.Decrypt (svcI.Encrypt n cfg.kmsKeyId p).1.CiphertextBlob
      = (⟨p⟩, none)) :
    (svcU.Decrypt (svcI.Encrypt 1 cfg.kmsKeyId (EncodeToString b)).1.CiphertextBlob).2 = none
      ∧ DecodeString
          (svcU.Decrypt (svcI.Encrypt 1 cfg.kmsKeyId (EncodeToString b)).1.CiphertextBlob).1.Plaintext
          = some b
      ∧ ∀ ir,
          lib.NewRequest "PUT" (cfg.vaultAddr ++ "/v1/sys/init") = none →
          svcI.Do 0 (initRequest cfg) = .ok ⟨200, (b, none)⟩ →
          lib.UnmarshalInitResponse b = .ok ir →
          svcI.NewSession = none →
          svcU.NewSession = none →
          ∀ readErr,
            svcU.GetObject cfg.s3BucketName "unseal-keys.json.enc" =
              .ok ((svcI.Encrypt 1 cfg.kmsKeyId (EncodeToString b)).1.CiphertextBlob, readErr) →
            ("unseal-keys.json.enc",
                (svcI.Encrypt 1 cfg.kmsKeyId (EncodeToString b)).1.CiphertextBlob)
              ∈ puts (initializeVault lib cfg svcI)
            ∧ escrowedInitResponse lib cfg svcU = some ir
            ∧ ∃ head, submitted head = [] ∧
                unsealVault lib cfg svcU = head ++ unsealLoop lib cfg svcU 0 ir.KeysBase64 := by
  have hdec := hcrypto 1 (EncodeToString b)
  refine ⟨by rw [hdec], by rw [hdec]; exact DecodeString_EncodeToString b hb, ?_⟩
  intro ir hreq hdo hparse hsI hsU readErr hget
  have hesc : escrowedInitResponse lib cfg svcU = some ir := by
    unfold escrowedInitResponse
    simp [hget, hdec, DecodeString_EncodeToString b hb, hparse]
  refine ⟨?_, hesc, ?_⟩
  · rw [initializeVault_reaches_store lib cfg svcI b ir hreq hdo hparse, puts_cons,
      puts_escrow cfg svcI b ir hsI]
    simp
  · obtain ⟨head, hs, _, hrun⟩ := unsealVault_of_escrowed lib cfg svcU ir hsU hesc
    exact ⟨head, hs, hrun⟩

/-! ## Encryption failure in initialization -/

/-- C4 (the code departs from the claim): with a KMS whose every `Encrypt` call
fails, the run of initialization logs both encryption errors and goes on to put
two empty blobs under root-token.json.enc and unseal-keys.json.enc, logging both
writes as successful. -/
theorem C4_encrypt_failure_still_puts :
    initializeVault demoLib demoConfig demoServicesKmsDown =
      [.httpDo (initRequest demoConfig),
       .log .encrypting,
       .kmsEncrypt "key" (goBytes "token"),
       .log (.encryptRootTokenErr "AccessDeniedException"),
       .kmsEncrypt "key" (EncodeToString [123, 125]),
       .log (.encryptUnsealKeysErr "AccessDeniedException"),
       .s3Put "bucket" "root-token.json.enc" [],
       .log (.rootTokenWritten "bucket" "root-token.json.enc"),
       .s3Put "bucket" "unseal-keys.json.enc" [],
       .log (.unsealKeysWritten "bucket" "unseal-keys.json.enc"),
       .log .initializationComplete]
      ∧ puts (initializeVault demoLib demoConfig demoServicesKmsDown) =
          [("root-token.json.enc", []), ("unseal-keys.json.enc", [])] := by
  constructor <;> rfl

/-! ## Runs without a panic -/

theorem not_panic_logIfErr (mk : Error → LogLine) (err : Option Error) :
    Event.panic ∉ logIfErr mk err := by
  unfold logIfErr; split <;> simp

theorem not_panic_putLog (bad : Error → LogLine) (good : LogLine) (err : Option Error) :
    Event.panic ∉ putLog bad good err := by
  unfold putLog; split <;> simp

theorem not_panic_unsealLoop (lib : Lib) (cfg : Config) (svc : Services) :
    ∀ (keys : List String) (n : Nat), Event.panic ∉ unsealLoop lib cfg svc n keys := by
  intro keys
  induction keys with
  | nil => intro n; simp [unsealLoop]
  | cons key rest ih =>
    intro n
    simp only [unsealLoop]
    rcases unsealOne_cases lib cfg svc n key with ⟨e, h⟩ | ⟨e, h⟩ | h | h <;> rw [h]
    · simp
    · simp
    · simp
    · simpa using ih (n + 1)

theorem not_panic_unsealVault (lib : Lib) (cfg : Config) (svc : Services)
    (h : svc.NewSession = none) : Event.panic ∉ unsealVault lib cfg svc := by
  unfold unsealVault
  simp only [h]
  have hl := not_panic_unsealLoop lib cfg svc
  repeat' split
  all_goals simp [not_panic_logIfErr, hl]

theorem not_panic_escrow (cfg : Config) (svc : Services) (body : Bytes) (ir : InitResponse)
    (h : svc.NewSession = none) : Event.panic ∉ escrow cfg svc body ir := by
  simp only [escrow, h]
  simp [not_panic_logIfErr, not_panic_putLog]

theorem not_panic_initializeVault (lib : Lib) (cfg : Config) (svc : Services)
    (h : svc.NewSession = none) : Event.panic ∉ initializeVault lib cfg svc := by
  have he := not_panic_escrow cfg svc
  unfold initializeVault
  repeat' split
  all_goals simp [he _ _ h]

/-- After a successful probe, when the sessions of both flows can be created,
the iteration is the probe, the log line of the state, the flows that the status
code selects, each run in full (initialization then unsealing for 501, unsealing
for 503, none otherwise), then the log line and the sleep of the interval. -/
theorem iteration_of_status (lib : Lib) (cfg : Config) (t : Tick) (response : Response)
    (h : t.Get = .ok response)
    (hI : t.initServices.NewSession = none) (hU : t.unsealServices.NewSession = none) :
    iteration lib cfg t =
      .httpGet (cfg.vaultAddr ++ "/v1/sys/health") ::
        (if response.StatusCode = 200 then [.log .initializedUnsealed]
         else if response.StatusCode = 429 then [.log .standby]
         else if response.StatusCode = 501 then
          [.log .notInitialized, .call .initialization]
            ++ initializeVault lib cfg t.initServices
            ++ [.call .unsealing] ++ unsealVault lib cfg t.unsealServices
         else if response.StatusCode = 503 then
          [.log .sealed, .call .unsealing] ++ unsealVault lib cfg t.unsealServices
         else [.log (.unknownState response.StatusCode)])
        ++ [.log (.nextCheck cfg.checkIntervalDuration), .sleep cfg.checkIntervalDuration] := by
  have pI := not_panic_initializeVault lib cfg t.initServices hI
  have pU := not_panic_unsealVault lib cfg t.unsealServices hU
  simp only [iteration, h]
  repeat' split
  all_goals simp_all

/-! ## A failed session -/

/-- C1 (the code departs from the claim): with the probe answered 501 and a
session that cannot be created, initialization logs the session error and the
process dies in `kms.New`; the iteration invokes initialization only, unsealing
is never invoked, and no later probe is made. -/
theorem C1_session_failure_kills_process :
    iteration demoLib demoConfig (demoWorldNoSession 0) =
        [.httpGet "https://127.0.0.1:8200/v1/sys/health",
         .log .notInitialized,
         .call .initialization,
         .httpDo (initRequest demoConfig),
         .log .encrypting,
         .log (.sessionErr "NoCredentialProviders"),
         .panic]
      ∧ flows (iteration demoLib demoConfig (demoWorldNoSession 0)) = [Flow.initialization]
      ∧ processTrace demoLib demoConfig demoWorldNoSession 3 =
          iteration demoLib demoConfig (demoWorldNoSession 0) := by
  refine ⟨?_, ?_, ?_⟩ <;> decide

/-! ## A failed read of the escrowed object -/

/-- C5 (the code departs from the claim): when `GetObject` succeeds and reading
the body of the object fails, the error is logged and the run goes on: it
decrypts the bytes read so far and submits the shares they decode to. -/
theorem C5_read_error_still_submits :
    unsealVault demoLib demoConfig demoServicesReadError =
        [.s3Get "bucket" "unseal-keys.json.enc",
         .log (.getObjectReadErr "unexpected EOF"),
         .kmsDecrypt [101, 51, 48, 61],
         .httpDo (unsealRequest demoConfig "k0"),
         .httpDo (unsealRequest demoConfig "k1"),
         .httpDo (unsealRequest demoConfig "k2"),
         .httpDo (unsealRequest demoConfig "k3"),
         .httpDo (unsealRequest demoConfig "k4")]
      ∧ submitted (unsealVault demoLib demoConfig demoServicesReadError) =
          ["k0", "k1", "k2", "k3", "k4"] := by
  constructor <;> decide

/-! ## The claims at a concrete world -/

/-- The claim C9 at a world whose probe is refused. -/
theorem C9_witness :
    (demoWorldDown 0).Get = .error "connection refused" ∧
      sleeps (iteration demoLib demoConfig (demoWorldDown 0)) = [10000000000] :=
  ⟨rfl, (C9_probe_error_single_sleep demoLib demoConfig demoWorldDown 0
    "connection refused" rfl).2.2.1⟩

/-- The claim C3 at services whose init endpoint answers 400. -/
theorem C3_witness :
    demoServicesInit400.Do 0 (initRequest demoConfig) = .ok ⟨400, ([], none)⟩ ∧
      encrypts (initializeVault demoLib demoConfig demoServicesInit400) = [] ∧
      puts (initializeVault demoLib demoConfig demoServicesInit400) = [] :=
  ⟨rfl, C3_init_failure_no_escrow demoLib demoConfig demoServicesInit400
    (Or.inr ⟨⟨400, ([], none)⟩, rfl, by decide⟩)⟩

/-- The claim C7 at services whose first put is denied. -/
theorem C7_witness :
    puts (initializeVault demoLib demoConfig demoServicesFirstPutFails) =
        [("root-token.json.enc", goBytes "token"),
         ("unseal-keys.json.enc", EncodeToString [123, 125])]
      ∧ writeErrors (initializeVault demoLib demoConfig demoServicesFirstPutFails)
          = ["AccessDenied"]
      ∧ Event.log (.unsealKeysWritten "bucket" "unseal-keys.json.enc")
          ∈ initializeVault demoLib demoConfig demoServicesFirstPutFails :=
  have h := C7_both_puts_attempted demoLib demoConfig demoServicesFirstPutFails [123, 125]
    ⟨["r0", "r1", "r2", "r3", "r4"], ["k0", "k1", "k2", "k3", "k4"], "token"⟩ rfl rfl rfl rfl
  ⟨h.1, h.2 "AccessDenied" rfl rfl⟩

/-- The demo services hand the five demo shares to a run of unsealing. -/
theorem escrowed_demo (flip : Nat) :
    escrowedInitResponse demoLib demoConfig (demoServices flip) =
      some ⟨["r0", "r1", "r2", "r3", "r4"], ["k0", "k1", "k2", "k3", "k4"], "token"⟩ := by
  have hd : DecodeString [101, 51, 48, 61] = some [123, 125] := by decide
  simp [escrowedInitResponse, demoServices, demoLib, hd]

/-- The demo endpoint answers sealed exactly on the submissions before `flip`. -/
theorem sealed_demo (flip j : Nat) (k : String) :
    submissionSealed demoLib demoConfig (demoServices flip) j k = some (decide (j < flip)) := by
  by_cases h : j < flip <;> simp [submissionSealed, demoServices, demoLib, unsealRequest, h]

/-- The claim C2 at five shares with submission 2 answered sealed false. -/
theorem C2_witness :
    submitted (unsealVault demoLib demoConfig (demoServices 2)) = ["k0", "k1", "k2"] :=
  (C2_stops_at_first_unsealed demoLib demoConfig (demoServices 2)
    ⟨["r0", "r1", "r2", "r3", "r4"], ["k0", "k1", "k2", "k3", "k4"], "token"⟩ 2
    rfl (escrowed_demo 2) (by decide)
    (fun j k hj _ => by rw [sealed_demo]; simp [hj])
    (fun k _ => by rw [sealed_demo]; simp)).1

/-- The services with a status 500 hand out the five demo shares too. -/
theorem escrowed_demo500 (bad : Nat) :
    escrowedInitResponse demoLib demoConfig (demoServicesStatus500 bad) =
      some ⟨["r0", "r1", "r2", "r3", "r4"], ["k0", "k1", "k2", "k3", "k4"], "token"⟩ := by
  have hd : DecodeString [101, 51, 48, 61] = some [123, 125] := by decide
  simp [escrowedInitResponse, demoServicesStatus500, demoServices, demoLib, hd]

/-- The claim C6 at five shares with submission 2 answered status 500. -/
theorem C6_witness :
    submitted (unsealVault demoLib demoConfig (demoServicesStatus500 2)) = ["k0", "k1", "k2"]
      ∧ unsealErrors (unsealVault demoLib demoConfig (demoServicesStatus500 2)) =
          ["unseal: non-200 status code: 500"] :=
  have h := C6_non200_aborts_run demoLib demoConfig (demoServicesStatus500 2)
    ⟨["r0", "r1", "r2", "r3", "r4"], ["k0", "k1", "k2", "k3", "k4"], "token"⟩ 2 500
    rfl (escrowed_demo500 2) (by decide)
    (fun j k hj _ => by
      have : j ≠ 2 := by omega
      simp [submissionSealed, demoServicesStatus500, demoLib, unsealRequest, this])
    (by decide)
    (fun k _ => by simp [submissionStatus, demoServicesStatus500, demoLib, unsealRequest])
  ⟨h.2.1, h.2.2⟩

/-- The claim C10 at five shares, every submission answered sealed true. -/
theorem C10_witness :
    submitted (unsealVault demoLib demoConfig (demoServices 5)) =
        ["k0", "k1", "k2", "k3", "k4"]
      ∧ unsealErrors (unsealVault demoLib demoConfig (demoServices 5)) = [] :=
  (C10_exhausts_shares_silently demoLib demoConfig (demoServices 5)
    ⟨["r0", "r1", "r2", "r3", "r4"], ["k0", "k1", "k2", "k3", "k4"], "token"⟩
    (escrowed_demo 5)).2.2 rfl
    (fun j k hk => by
      rw [sealed_demo]
      have hj : j < 5 := by
        by_contra hc
        have : (["k0", "k1", "k2", "k3", "k4"] : List String)[j]? = none :=
          List.getElem?_eq_none (by simp; omega)
        simp [this] at hk
      simp [hj])

/-- The claim C8 at the payload `{}` and the identity crypto client. -/
theorem C8_witness :
    IsBytes [123, 125] ∧
      DecodeString
          ((demoServices 0).Decrypt
            ((demoServices 0).Encrypt 1 demoConfig.kmsKeyId
              (EncodeToString [123, 125])).1.CiphertextBlob).1.Plaintext
        = some [123, 125] :=
  ⟨by decide, (C8_escrow_round_trip demoLib demoConfig (demoServices 0) (demoServices 0)
    [123, 125] (by decide) (fun _ _ => rfl)).2.1⟩

end VaultInit
